import Mathlib

/-!
Verification of the image-processing core of django-imagefield
(`imagefield/processing.py`): the processor registry, the handler-chaining
pipeline builder, the built-in processors (autorotate, preprocess_jpeg,
preprocess_gif, preserve_icc_profile, thumbnail, crop), and the render
driver `process_image`.

Modelling conventions:
* Images are a free algebra over the codec operations the code performs
  (`transpose`, `convert('RGB')`, `copy`, `thumbnail`, `crop`, `resize`,
  `putpalette`), with accessors (`size`, `format`, `mode`, `info`,
  `getpalette`, `_getexif`) following the codec's (PIL's) documented
  behaviour: derived images have `format = None` and expose no `_getexif`
  method, while the `info` dictionary is inherited.
* Python floats are modelled with exact rational arithmetic (the spec
  states the crop geometry with real-valued division); Python `int(...)`
  is truncation toward zero and `//` is floor division (`Int.fdiv`).
* The storage and codec collaborators are parameters: `process_image`
  records the storage calls it makes in an event trace, and takes the
  decode result and the encoder as arguments.
-/

namespace Imagefield

/-- Metadata of a freshly decoded source image, as exposed by the codec:
dimensions, the source format tag, the color mode, the `info` dictionary
entries the code reads (`transparency`, `icc_profile`), whether the object
exposes the `_getexif` method, the EXIF dictionary, and the palette. -/
structure SourceMeta where
  width : Nat
  height : Nat
  format : Option String
  mode : String
  transparency : Option Int
  icc_profile : Option String
  hasExifMethod : Bool
  exifData : List (Nat × Int)
  palette : Option (List Nat)
deriving DecidableEq

/-- An image buffer: either a decoded source image or the result of one of
the codec operations the processors invoke. -/
inductive Img where
  | base (m : SourceMeta)
  | transpose (method : Nat) (i : Img)
  | convertRGB (i : Img)
  | copy (i : Img)
  | thumbnailed (size : Nat × Nat) (i : Img)
  | cropped (rect : Int × Int × Int × Int) (i : Img)
  | resized (size : Nat × Nat) (i : Img)
  | putpalette (p : List Nat) (i : Img)
deriving DecidableEq

/-- PIL transpose-method constant `Image.ROTATE_90`. -/
def ROTATE_90 : Nat := 2

/-- PIL transpose-method constant `Image.ROTATE_180`. -/
def ROTATE_180 : Nat := 3

/-- PIL transpose-method constant `Image.ROTATE_270`. -/
def ROTATE_270 : Nat := 4

/-- Modelled from the spec: the codec's `thumbnail` bounding-box fit
(constrain to fit within the box, preserving aspect ratio, never
enlarging); the exact rounding of this collaborator is outside the core. -/
def thumbSize : Nat × Nat → Nat × Nat → Nat × Nat := fun (x, y) (mw, mh) =>
  let p := if mw < x then (mw, max ((y * mw + x / 2) / x) 1) else (x, y)
  if mh < p.2 then (max ((p.1 * mh + p.2 / 2) / p.2) 1, mh) else p

/-- Pixel dimensions (`image.size`) of an image buffer. -/
def Img.size : Img → Nat × Nat
  | .base m => (m.width, m.height)
  | .transpose method i =>
      if method = ROTATE_90 ∨ method = ROTATE_270 then (i.size.2, i.size.1) else i.size
  | .convertRGB i => i.size
  | .copy i => i.size
  | .thumbnailed s i => thumbSize i.size s
  | .cropped (l, t, r, b) _ => ((r - l).toNat, (b - t).toNat)
  | .resized s _ => s
  | .putpalette _ i => i.size

/-- Source-format tag (`image.format`): only set on images decoded from a
file; every derived image has `None`. -/
def Img.format : Img → Option String
  | .base m => m.format
  | _ => none

/-- Color mode (`image.mode`); `convert('RGB')` yields `RGB`, `putpalette`
switches to palette mode, the other operations preserve the mode. -/
def Img.mode : Img → String
  | .base m => m.mode
  | .convertRGB _ => ("RGB")
  | .putpalette _ _ => ("P")
  | .transpose _ i => i.mode
  | .copy i => i.mode
  | .thumbnailed _ i => i.mode
  | .cropped _ i => i.mode
  | .resized _ i => i.mode

/-- The `transparency` entry of `image.info` (the `info` dictionary is
inherited by derived images). -/
def Img.infoTransparency : Img → Option Int
  | .base m => m.transparency
  | .transpose _ i => i.infoTransparency
  | .convertRGB i => i.infoTransparency
  | .copy i => i.infoTransparency
  | .thumbnailed _ i => i.infoTransparency
  | .cropped _ i => i.infoTransparency
  | .resized _ i => i.infoTransparency
  | .putpalette _ i => i.infoTransparency

/-- The `icc_profile` entry of `image.info` (inherited by derived images). -/
def Img.iccProfile : Img → Option String
  | .base m => m.icc_profile
  | .transpose _ i => i.iccProfile
  | .convertRGB i => i.iccProfile
  | .copy i => i.iccProfile
  | .thumbnailed _ i => i.iccProfile
  | .cropped _ i => i.iccProfile
  | .resized _ i => i.iccProfile
  | .putpalette _ i => i.iccProfile

/-- Whether the object exposes `_getexif` (only file-parser image classes
do; derived plain images do not). -/
def Img.hasExifMethod : Img → Bool
  | .base m => m.hasExifMethod
  | _ => false

/-- The EXIF dictionary returned by `_getexif()`; the empty list stands for
the falsy results (`None` or an empty dictionary). -/
def Img.getexif : Img → List (Nat × Int)
  | .base m => m.exifData
  | _ => []

/-- The color palette (`image.getpalette()`): `None` for non-palette modes,
set by `putpalette`, dropped by `convert('RGB')`, otherwise inherited. -/
def Img.getpalette : Img → Option (List Nat)
  | .base m => m.palette
  | .convertRGB _ => none
  | .putpalette p _ => some p
  | .transpose _ i => i.getpalette
  | .copy i => i.getpalette
  | .thumbnailed _ i => i.getpalette
  | .cropped _ i => i.getpalette
  | .resized _ i => i.getpalette

/-- The accumulating encode options (`context.save_kwargs`): a key is
`some` exactly when the corresponding dictionary entry has been set. -/
structure SaveKwargs where
  quality : Option Nat
  progressive : Option Bool
  transparency : Option Int
  icc_profile : Option (Option String)
deriving DecidableEq

/-- The empty `save_kwargs` dictionary. -/
def SaveKwargs.empty : SaveKwargs := ⟨none, none, none, none⟩

/-- The render context (`SimpleNamespace(ppoi=..., save_kwargs={})`). -/
structure Ctx where
  ppoi : ℚ × ℚ
  save_kwargs : SaveKwargs
deriving DecidableEq

/-- Errors a processor can raise while the pipeline runs. -/
inductive PErr where
  | indexError
  | invalidPalette
deriving DecidableEq

/-- A composed handler: takes an image and a context, returns both
(possibly transformed), or raises. -/
def Handler : Type := Img → Ctx → Except PErr (Img × Ctx)

/-- A processor factory, as stored in the registry: takes the wrapped
inner handler and the spec's argument list, returns a new handler. -/
def Factory : Type := Handler → List (Nat × Nat) → Handler

/-- Python `int(...)` on a rational: truncation toward zero. -/
def truncQ (q : ℚ) : Int := if 0 ≤ q then ⌊q⌋ else ⌈q⌉

/-- The crop rectangle `(left, top, right, bottom)` computed by the `crop`
processor from the source size `(w, h)`, the target size
`(width, height)` and the PPOI fractions `(px, py)`, transcribing the
source: focus pixel by truncation, aspect ratios by exact division,
`int(x + 0.5)` rounding for the kept dimension, floor division for the
centering offset, and the shift-style boundary clamp. -/
def cropRect (w h width height : Nat) (px py : ℚ) : Int × Int × Int × Int :=
  let fx : Int := truncQ ((w : ℚ) * px)
  let fy : Int := truncQ ((h : ℚ) * py)
  let orig_aspect : ℚ := (w : ℚ) / (h : ℚ)
  let crop_aspect : ℚ := (width : ℚ) / (height : ℚ)
  if crop_aspect ≤ orig_aspect then
    let cw : Int := truncQ (crop_aspect * (h : ℚ) + 1/2)
    let l0 : Int := fx - Int.fdiv cw 2
    let r0 : Int := l0 + cw
    if l0 < 0 then (0, 0, cw, (h : Int))
    else if (w : Int) < r0 then ((w : Int) - cw, 0, (w : Int), (h : Int))
    else (l0, 0, r0, (h : Int))
  else
    let ch : Int := truncQ ((w : ℚ) / crop_aspect + 1/2)
    let t0 : Int := fy - Int.fdiv ch 2
    let b0 : Int := t0 + ch
    if t0 < 0 then (0, 0, (w : Int), ch)
    else if (h : Int) < b0 then (0, (h : Int) - ch, (w : Int), (h : Int))
    else (0, t0, (w : Int), b0)

/-- The `autorotate` processor factory: reads EXIF tag 274 and maps
`{3 ↦ ROTATE_180, 6 ↦ ROTATE_270, 8 ↦ ROTATE_90}`; the truthiness test
`if rotation:` is the check against `None` and `0`. -/
def autorotate : Factory := fun get_image _args => fun image context =>
  if image.hasExifMethod = false then get_image image context
  else if image.getexif = [] then get_image image context
  else
    match (Img.getexif image).lookup 274 with
    | none => get_image image context
    | some o =>
      match List.lookup o [((3 : Int), ROTATE_180), (6, ROTATE_270), (8, ROTATE_90)] with
      | none => get_image image context
      | some r => if r = 0 then get_image image context
                  else get_image (Img.transpose r image) context

/-- The `preprocess_jpeg` processor factory: on a JPEG source sets
`quality = 90` and `progressive = True` and converts a non-RGB image to
RGB; a single delegation at the end. -/
def preprocess_jpeg : Factory := fun get_image _args => fun image context =>
  let p :=
    if image.format = some ("JPEG") then
      ((if image.mode ≠ ("RGB") then Img.convertRGB image else image),
       { context with save_kwargs :=
          { context.save_kwargs with quality := some 90, progressive := some true } })
    else (image, context)
  get_image p.1 p.2

/-- The context after `preprocess_gif`'s transparency copy: the
`transparency` encode option is set when the entry is present in
`image.info`. -/
def gifContext (image : Img) (context : Ctx) : Ctx :=
  match image.infoTransparency with
  | some t => { context with save_kwargs := { context.save_kwargs with transparency := some t } }
  | none => context

/-- The `preprocess_gif` processor factory: on a GIF source copies a
present transparency index into the encode options, captures the palette,
delegates, then re-applies the captured palette onto the returned image
(`putpalette(None)` would raise, hence the error on a missing palette). -/
def preprocess_gif : Factory := fun get_image _args => fun image context =>
  if image.format = some ("GIF") then
    let context := gifContext image context
    let palette := image.getpalette
    match get_image image context with
    | .error e => .error e
    | .ok (image2, context2) =>
      match palette with
      | some p => .ok (Img.putpalette p image2, context2)
      | none => .error .invalidPalette
  else get_image image context

/-- The `preserve_icc_profile` processor factory: always sets the
`icc_profile` encode option to `image.info.get('icc_profile')` (possibly
`None`). -/
def preserve_icc_profile : Factory := fun get_image _args => fun image context =>
  get_image image
    { context with save_kwargs :=
        { context.save_kwargs with icc_profile := some image.iccProfile } }

/-- The `thumbnail` processor factory: copies the image and constrains the
copy to the bounding box `args[0]`; a missing argument is the Python
`IndexError`. -/
def thumbnail : Factory := fun get_image args => fun image context =>
  match args with
  | [] => .error .indexError
  | s :: _ => get_image (Img.thumbnailed s (Img.copy image)) context

/-- The `crop` processor factory: computes the point-of-interest crop
rectangle and resizes the cropped image to exactly `args[0]`; a missing
argument is the Python `IndexError` (raised on unpack in the source). -/
def crop : Factory := fun get_image args =>
  match args with
  | [] => fun _ _ => .error .indexError
  | (width, height) :: _ => fun image context =>
    let rect := cropRect image.size.1 image.size.2 width height context.ppoi.1 context.ppoi.2
    get_image (Img.resized (width, height) (Img.cropped rect image)) context

/-- Python dictionary assignment `d[k] = v`: replaces the value of an
existing key in place, otherwise appends the new entry. -/
def dictSet {α : Type} : List (String × α) → String → α → List (String × α)
  | [], n, v => [(n, v)]
  | (k, w) :: rest, n, v =>
      if k = n then (n, v) :: rest else (k, w) :: dictSet rest n v

/-- Python dictionary lookup `d[k]` / `d.get(k)`. -/
def dictGet {α : Type} : List (String × α) → String → Option α
  | [], _ => none
  | (k, w) :: rest, n => if k = n then some w else dictGet rest n

/-- The `register` decorator: `PROCESSORS[fn.__name__] = fn`. -/
def register {α : Type} (d : List (String × α)) (name : String) (fn : α) :
    List (String × α) :=
  dictSet d name fn

/-- The module-level `PROCESSORS` registry after the six built-in
`@register` decorators have run, in source order. -/
def PROCESSORS : List (String × Factory) :=
  register (register (register (register (register (register []
    ("autorotate") autorotate)
    ("preprocess_jpeg") preprocess_jpeg)
    ("preprocess_gif") preprocess_gif)
    ("preserve_icc_profile") preserve_icc_profile)
    ("thumbnail") thumbnail)
    ("crop") crop

/-- A processor spec: a bare name, or a name with positional arguments. -/
inductive Spec where
  | bare (name : String)
  | withArgs (name : String) (args : List (Nat × Nat))
deriving DecidableEq

/-- The name a spec resolves in the registry. -/
def Spec.name : Spec → String
  | .bare n => n
  | .withArgs n _ => n

/-- A failing registry lookup during the build (`PROCESSORS[part]` raises
`KeyError`). -/
inductive BuildErr where
  | keyError (name : String)
deriving DecidableEq

/-- The identity handler `build_handler` starts from
(`def handler(*args): return args`). -/
def handler0 : Handler := fun image context => Except.ok (image, context)

/-- One iteration of the `build_handler` loop: resolve the spec's factory
in the registry (a failing lookup is the Python `KeyError`) and wrap the
handler built so far. -/
def buildStep (acc : Except BuildErr Handler) (part : Spec) : Except BuildErr Handler :=
  match acc with
  | .error e => .error e
  | .ok handler =>
    match part with
    | .bare n =>
      match dictGet PROCESSORS n with
      | some factory => .ok (factory handler [])
      | none => .error (.keyError n)
    | .withArgs n args =>
      match dictGet PROCESSORS n with
      | some factory => .ok (factory handler args)
      | none => .error (.keyError n)

/-- The pipeline builder `build_handler`: starts from the identity handler
and walks the spec list in the order given, wrapping the current handler
with each resolved factory in turn. -/
def build_handler (processors : List Spec) : Except BuildErr Handler :=
  processors.foldl buildStep (Except.ok handler0)

/-- The fixed `always` prefix of `process_image`. -/
def alwaysSpecs : List Spec :=
  [.bare ("autorotate"), .bare ("preprocess_jpeg"),
   .bare ("preprocess_gif"), .bare ("preserve_icc_profile")]

/-- One storage / codec event of a render, in the order it happens. -/
inductive Ev where
  | existsCheck (target : String) (result : Bool)
  | openDecode
  | delete (target : String)
  | save (target : String) (data : List Nat)
deriving DecidableEq

/-- The failure kinds `process_image` can surface. -/
inductive RenderErr where
  | decodeFailed
  | buildFailed (e : BuildErr)
  | processingFailed (e : PErr)
  | encodeFailed
deriving DecidableEq

/-- The render driver `process_image`, with the collaborators as
parameters: `storageExists` is what `file.storage.exists(target)` would
report, `decodeRes` the outcome of `Image.open` on the source, `encode`
the codec's `image.save(buf, format=..., **save_kwargs)`. Returns the
outcome and the trace of storage / codec events in execution order. -/
def process_image
    (storageExists : Bool)
    (decodeRes : Option Img)
    (encode : Img → Option String → SaveKwargs → Option (List Nat))
    (target : String)
    (processors : List Spec)
    (ppoi : ℚ × ℚ)
    (force : Bool) :
    Except RenderErr Unit × List Ev :=
  if !force && storageExists then
    (.ok (), [.existsCheck target true])
  else
    let evs0 : List Ev := if force then [] else [.existsCheck target false]
    match decodeRes with
    | none => (.error .decodeFailed, evs0)
    | some image =>
      let evs1 := evs0 ++ [.openDecode]
      let context : Ctx := { ppoi := ppoi, save_kwargs := SaveKwargs.empty }
      let fmt := image.format
      match build_handler (alwaysSpecs ++ processors) with
      | .error e => (.error (.buildFailed e), evs1)
      | .ok handler =>
        match handler image context with
        | .error e => (.error (.processingFailed e), evs1)
        | .ok (image2, context2) =>
          match encode image2 fmt context2.save_kwargs with
          | none => (.error .encodeFailed, evs1)
          | some data => (.ok (), evs1 ++ [.delete target, .save target data])

/-- Whether an event mutates the storage (a `delete` or a `save`). -/
def mutatesStore : Ev → Bool
  | .delete _ => true
  | .save _ _ => true
  | _ => false

/-- The effect of one event on an abstract storage state (name ↦ bytes). -/
def applyEv (σ : String → Option (List Nat)) : Ev → (String → Option (List Nat))
  | .delete t => fun n => if n = t then none else σ n
  | .save t d => fun n => if n = t then some d else σ n
  | _ => σ

/-- The effect of an event trace on an abstract storage state. -/
def applyEvents (σ : String → Option (List Nat)) (evs : List Ev) :
    String → Option (List Nat) :=
  evs.foldl applyEv σ

/-- Run `build_handler` and apply the composed handler, as `process_image`
does, but observing only the pipeline (no storage). -/
def runSpecs (specs : List Spec) (i : Img) (c : Ctx) : Option (Img × Ctx) :=
  match build_handler specs with
  | .error _ => none
  | .ok h => (h i c).toOption

/-! Spec-side formulations of the crop geometry (§4.3 of the spec), to be
compared with the transcription `cropRect` of the source. -/

/-- Modelled from the spec: the focus pixel x-coordinate
`int(ppoi.x * source_width)` (floor form, for in-range inputs). -/
def focus_x (w : Nat) (px : ℚ) : Int := ⌊(w : ℚ) * px⌋

/-- Modelled from the spec: the focus pixel y-coordinate. -/
def focus_y (h : Nat) (py : ℚ) : Int := ⌊(h : ℚ) * py⌋

/-- Modelled from the spec: the kept crop width of the wide branch,
`round(target_aspect * source_height)` with round-half-up. -/
def spec_crop_width (h width height : Nat) : Int :=
  ⌊(width : ℚ) / (height : ℚ) * (h : ℚ) + 1/2⌋

/-- Modelled from the spec: the kept crop height of the tall branch,
`round(source_width / target_aspect)` with round-half-up. -/
def spec_crop_height (w width height : Nat) : Int :=
  ⌊(w : ℚ) / ((width : ℚ) / (height : ℚ)) + 1/2⌋

/-- Modelled from the spec: the unclamped left edge
`focus_x - crop_width // 2`. -/
def spec_left (w h width height : Nat) (px : ℚ) : Int :=
  focus_x w px - spec_crop_width h width height / 2

/-- Modelled from the spec: the unclamped top edge
`focus_y - crop_height // 2`. -/
def spec_top (w h width height : Nat) (py : ℚ) : Int :=
  focus_y h py - spec_crop_height w width height / 2

/-! General-purpose lemmas about the embedding. -/

theorem truncQ_of_nonneg (q : ℚ) (h : 0 ≤ q) : truncQ q = ⌊q⌋ := if_pos h

theorem fdiv_two_eq (a : Int) : Int.fdiv a 2 = a / 2 := Int.fdiv_eq_ediv a (by norm_num)

theorem floor_half_le {q : ℚ} {n : Nat} (h : q ≤ n) : ⌊q + 1/2⌋ ≤ (n : Int) := by
  have h1 : ⌊q + 1/2⌋ ≤ ⌊(n : ℚ) + 1/2⌋ := Int.floor_le_floor (by linarith)
  have h2 : (⌊(n : ℚ) + 1/2⌋ : Int) = n := by
    rw [show ((n : ℚ) + 1/2) = ((n : Int) : ℚ) + 1/2 by push_cast; ring]
    rw [Int.floor_int_add]
    norm_num
  omega

theorem floor_half_nonneg {q : ℚ} (h : 0 ≤ q) : (0 : Int) ≤ ⌊q + 1/2⌋ := by positivity

theorem dictGet_dictSet_isSome {α : Type} (d : List (String × α)) (n : String)
    (v : α) (m : String) (hm : (dictGet d m).isSome = true) :
    (dictGet (dictSet d n v) m).isSome = true := by
  induction d with
  | nil => simp [dictGet] at hm
  | cons kv rest ih =>
    rcases kv with ⟨k, w⟩
    by_cases hk : k = n
    · subst hk
      simp only [dictSet, if_pos rfl]
      by_cases hm2 : k = m
      · simp [dictGet, hm2]
      · simp only [dictGet, if_neg hm2] at hm ⊢
        exact hm
    · simp only [dictSet, if_neg hk]
      by_cases hm2 : k = m
      · simp [dictGet, hm2]
      · simp only [dictGet, if_neg hm2] at hm ⊢
        exact ih hm

/-! Concrete fixtures used by the evaluation theorems below. -/

/-- A 1000×500 RGB PNG source with no EXIF data and no palette. -/
def metaW : SourceMeta :=
  { width := 1000, height := 500, format := some ("PNG"), mode := ("RGB"),
    transparency := none, icc_profile := none, hasExifMethod := false,
    exifData := [], palette := none }

/-- A 100×100 palette-mode GIF source with a transparency index. -/
def meta0 : SourceMeta :=
  { width := 100, height := 100, format := some ("GIF"), mode := ("P"),
    transparency := some 7, icc_profile := none, hasExifMethod := false,
    exifData := [], palette := some [1, 2, 3] }

/-- A 600×400 JPEG source whose EXIF orientation tag is 6. -/
def metaE : SourceMeta :=
  { width := 600, height := 400, format := some ("JPEG"), mode := ("RGB"),
    transparency := none, icc_profile := none, hasExifMethod := true,
    exifData := [(274, 6)], palette := none }

/-- A render context with a centered point of interest. -/
def ctx0 : Ctx := { ppoi := (1/2, 1/2), save_kwargs := SaveKwargs.empty }

/-- An inner handler that converts to RGB (dropping any palette). -/
def g0 : Handler := fun i c => .ok (Img.convertRGB i, c)

/-- A trivially succeeding encoder. -/
def encode0 : Img → Option String → SaveKwargs → Option (List Nat) :=
  fun _ _ _ => some []

/-! The claims. -/

/-- Claim C1 (refuted; evaluation of the code at the failing input): the
handler built by `build_handler` executes the processors in REVERSE
declared order, not in declared order. With caller specs
`[crop 50×50, crop 30×30]` the second spec's crop is applied first
(innermost layer) and the first spec's crop last (outermost layer), so the
final size is 50×50 rather than 30×30; and with a GIF source and one crop
spec the fixed `always` prefix runs after the caller's crop on a
format-less derived image, so no palette is ever re-applied and the
transparency index is never copied into the encode options. -/
theorem c1_pipeline_order_eval :
    (runSpecs (alwaysSpecs ++ [Spec.withArgs ("crop") [(50, 50)],
        Spec.withArgs ("crop") [(30, 30)]]) (Img.base metaW) ctx0).map (fun p => p.1)
      = some (Img.resized (50, 50) (Img.cropped (0, 0, 30, 30)
          (Img.resized (30, 30) (Img.cropped (250, 0, 750, 500) (Img.base metaW)))))
  ∧ (runSpecs (alwaysSpecs ++ [Spec.withArgs ("crop") [(50, 50)]]) (Img.base meta0)
        ctx0).map (fun p => p.1)
      = some (Img.resized (50, 50) (Img.cropped (0, 0, 100, 100) (Img.base meta0)))
  ∧ (runSpecs (alwaysSpecs ++ [Spec.withArgs ("crop") [(50, 50)]]) (Img.base meta0)
        ctx0).map (fun p => p.2.save_kwargs.transparency)
      = some none := by
  have hrA : cropRect 1000 500 30 30 (1/2) (1/2) = (250, 0, 750, 500) := by
    simp only [cropRect, truncQ]
    norm_num [Int.fdiv_eq_ediv]
  have hrB : cropRect 30 30 50 50 (1/2) (1/2) = (0, 0, 30, 30) := by
    simp only [cropRect, truncQ]
    norm_num [Int.fdiv_eq_ediv]
  have hrC : cropRect 100 100 50 50 (1/2) (1/2) = (0, 0, 100, 100) := by
    simp only [cropRect, truncQ]
    norm_num [Int.fdiv_eq_ediv]
  refine ⟨?_, ?_, ?_⟩
  · have h1 :
        (runSpecs (alwaysSpecs ++ [Spec.withArgs ("crop") [(50, 50)],
            Spec.withArgs ("crop") [(30, 30)]]) (Img.base metaW) ctx0).map (fun p => p.1)
          = some (Img.resized (50, 50) (Img.cropped (cropRect 30 30 50 50 (1/2) (1/2))
              (Img.resized (30, 30) (Img.cropped (cropRect 1000 500 30 30 (1/2) (1/2))
                (Img.base metaW))))) := rfl
    rw [h1, hrA, hrB]
  · have h2 :
        (runSpecs (alwaysSpecs ++ [Spec.withArgs ("crop") [(50, 50)]]) (Img.base meta0)
            ctx0).map (fun p => p.1)
          = some (Img.resized (50, 50) (Img.cropped (cropRect 100 100 50 50 (1/2) (1/2))
              (Img.base meta0))) := rfl
    rw [h2, hrC]
  · rfl

/-- Claim C2: whenever `process_image` fails (the decode, the pipeline
build, any processor, or the encode raises), the event trace contains no
`delete` and no `save`, and the abstract storage state is unchanged, so
any prior content at the target is byte-for-byte untouched. -/
theorem c2_failure_leaves_storage_unchanged (storageExists : Bool)
    (decodeRes : Option Img)
    (encode : Img → Option String → SaveKwargs → Option (List Nat))
    (target : String) (processors : List Spec) (ppoi : ℚ × ℚ) (force : Bool)
    (e : RenderErr) (σ : String → Option (List Nat))
    (herr : (process_image storageExists decodeRes encode target processors ppoi force).1
      = .error e) :
    ((process_image storageExists decodeRes encode target processors ppoi force).2.all
        fun ev => !mutatesStore ev) = true ∧
    applyEvents σ (process_image storageExists decodeRes encode target processors ppoi force).2
      = σ := by
  have main : ∀ (f : Bool), (!f && storageExists) = false →
      ((process_image storageExists decodeRes encode target processors ppoi f).1
          = .error e →
        ((process_image storageExists decodeRes encode target processors ppoi f).2.all
            fun ev => !mutatesStore ev) = true ∧
        applyEvents σ
            (process_image storageExists decodeRes encode target processors ppoi f).2 = σ) := by
    intro f hc herr2
    cases decodeRes with
    | none =>
      cases f with
      | false =>
        have hse : storageExists = false := by simpa using hc
        simp [process_image, hse, mutatesStore, applyEvents, applyEv]
      | true =>
        simp [process_image, mutatesStore, applyEvents, applyEv]
    | some image =>
      cases hbh : build_handler (alwaysSpecs ++ processors) with
      | error e2 =>
        cases f with
        | false =>
          have hse : storageExists = false := by simpa using hc
          simp [process_image, hse, hbh, mutatesStore, applyEvents, applyEv]
        | true =>
          simp [process_image, hbh, mutatesStore, applyEvents, applyEv]
      | ok handler =>
        cases hap : handler image { ppoi := ppoi, save_kwargs := SaveKwargs.empty } with
        | error e2 =>
          cases f with
          | false =>
            have hse : storageExists = false := by simpa using hc
            simp [process_image, hse, hbh, hap, mutatesStore, applyEvents, applyEv]
          | true =>
            simp [process_image, hbh, hap, mutatesStore, applyEvents, applyEv]
        | ok r =>
          cases henc : encode r.1 image.format r.2.save_kwargs with
          | none =>
            cases f with
            | false =>
              have hse : storageExists = false := by simpa using hc
              simp [process_image, hse, hbh, hap, henc, mutatesStore, applyEvents, applyEv]
            | true =>
              simp [process_image, hbh, hap, henc, mutatesStore, applyEvents, applyEv]
          | some data =>
            exfalso
            cases f with
            | false =>
              have hse : storageExists = false := by simpa using hc
              simp [process_image, hse, hbh, hap, henc] at herr2
            | true =>
              simp [process_image, hbh, hap, henc] at herr2
  by_cases hc : (!force && storageExists) = true
  · simp [process_image, hc] at herr
  · exact main force (by simpa using hc) herr

/-- Witness for C2: a render whose decode fails ends with an error, a
mutation-free trace, and an unchanged storage state. -/
theorem c2_failure_leaves_storage_unchanged_witness :
    (process_image false none encode0 ("t.jpg") [] (1/2, 1/2) false).1
        = .error RenderErr.decodeFailed
    ∧ ((process_image false none encode0 ("t.jpg") [] (1/2, 1/2) false).2.all
        fun ev => !mutatesStore ev) = true
    ∧ applyEvents (fun _ => none)
        (process_image false none encode0 ("t.jpg") [] (1/2, 1/2) false).2
        = (fun _ => none) := by
  have h := c2_failure_leaves_storage_unchanged false none encode0 ("t.jpg") [] (1/2, 1/2)
    false RenderErr.decodeFailed (fun _ => none) rfl
  exact ⟨rfl, h.1, h.2⟩

/-- Claim C3: when the centered window needs no clamp, the crop rectangle
is exactly the spec's formula on either axis. In the wide branch
(`orig_aspect ≥ target_aspect`): `crop_width = int(target_aspect*h + 0.5)`,
full height kept, `left = focus_x - crop_width // 2`,
`right = left + crop_width`; symmetrically in the tall branch:
`crop_height = int(w / target_aspect + 0.5)`, full width kept,
`top = focus_y - crop_height // 2`, `bottom = top + crop_height`. And the
`crop` processor hands the next handler exactly the cropped rectangle
resized to the requested target size. -/
theorem c3_crop_rect_branch_formulas (w h width height : Nat) (px py : ℚ)
    (hpx0 : 0 ≤ px) (hpy0 : 0 ≤ py) :
    ((width : ℚ) / (height : ℚ) ≤ (w : ℚ) / (h : ℚ) →
      0 ≤ spec_left w h width height px →
      spec_left w h width height px + spec_crop_width h width height ≤ (w : Int) →
      cropRect w h width height px py
        = (spec_left w h width height px, 0,
           spec_left w h width height px + spec_crop_width h width height, (h : Int)))
  ∧ ((w : ℚ) / (h : ℚ) < (width : ℚ) / (height : ℚ) →
      0 ≤ spec_top w h width height py →
      spec_top w h width height py + spec_crop_height w width height ≤ (h : Int) →
      cropRect w h width height px py
        = (0, spec_top w h width height py, (w : Int),
           spec_top w h width height py + spec_crop_height w width height))
  ∧ ∀ (g : Handler) (i : Img) (c : Ctx) (rest : List (Nat × Nat)),
      crop g ((width, height) :: rest) i c
        = g (Img.resized (width, height)
            (Img.cropped (cropRect i.size.1 i.size.2 width height c.ppoi.1 c.ppoi.2) i)) c := by
  refine ⟨fun hwide hl hr => ?_, fun htall ht hbt => ?_, fun g i c rest => rfl⟩
  · have hfx : truncQ ((w : ℚ) * px) = focus_x w px :=
      truncQ_of_nonneg _ (by positivity)
    have hcw : truncQ ((width : ℚ) / (height : ℚ) * (h : ℚ) + 1/2)
        = spec_crop_width h width height :=
      truncQ_of_nonneg _ (by positivity)
    simp only [cropRect, if_pos hwide, hfx, hcw, fdiv_two_eq]
    rw [if_neg, if_neg]
    · rfl
    · rw [not_lt]
      exact hr
    · rw [not_lt]
      exact hl
  · have hfy : truncQ ((h : ℚ) * py) = focus_y h py :=
      truncQ_of_nonneg _ (by positivity)
    have hch : truncQ ((w : ℚ) / ((width : ℚ) / (height : ℚ)) + 1/2)
        = spec_crop_height w width height :=
      truncQ_of_nonneg _ (by positivity)
    simp only [cropRect, if_neg (not_le.mpr htall), hfy, hch, fdiv_two_eq]
    rw [if_neg, if_neg]
    · rfl
    · rw [not_lt]
      exact hbt
    · rw [not_lt]
      exact ht

/-- Witness for C3, one instance per branch: the spec's wide example —
source 1000×500, target 200×200, centered PPOI — yields the crop
rectangle (250, 0, 750, 500), and the transposed tall instance — source
500×1000, same target and PPOI — yields (0, 250, 500, 750). -/
theorem c3_crop_rect_branch_formulas_witness :
    cropRect 1000 500 200 200 (1/2) (1/2) = (250, 0, 750, 500)
  ∧ cropRect 500 1000 200 200 (1/2) (1/2) = (0, 250, 500, 750) := by
  constructor
  · have hcw : spec_crop_width 500 200 200 = 500 := by
      simp only [spec_crop_width]
      norm_num
    have hfx : focus_x 1000 (1/2) = 500 := by
      simp only [focus_x]
      norm_num
    have hsl : spec_left 1000 500 200 200 (1/2) = 250 := by
      simp only [spec_left, hcw, hfx]
      norm_num
    have h := (c3_crop_rect_branch_formulas 1000 500 200 200 (1/2) (1/2) (by norm_num)
      (by norm_num)).1 (by norm_num) (by rw [hsl]; norm_num) (by rw [hsl, hcw]; norm_num)
    rw [h, hsl, hcw]
    norm_num
  · have hch : spec_crop_height 500 200 200 = 500 := by
      simp only [spec_crop_height]
      norm_num
    have hfy : focus_y 1000 (1/2) = 500 := by
      simp only [focus_y]
      norm_num
    have hst : spec_top 500 1000 200 200 (1/2) = 250 := by
      simp only [spec_top, hch, hfy]
      norm_num
    have h := (c3_crop_rect_branch_formulas 500 1000 200 200 (1/2) (1/2) (by norm_num)
      (by norm_num)).2.1 (by norm_num) (by rw [hst]; norm_num) (by rw [hst, hch]; norm_num)
    rw [h, hst, hch]
    norm_num

/-- Claim C4: when the centered window would cross an image edge, the crop
processor shifts it back without shrinking it, on either axis: a negative
left (resp. top) becomes 0 with the right (resp. bottom) at the kept crop
size, and an overflowing right (resp. bottom) becomes the image edge with
the left (resp. top) at `size - crop_size`. -/
theorem c4_crop_clamp_shifts_window (w h width height : Nat) (px py : ℚ)
    (hpx0 : 0 ≤ px) (hpy0 : 0 ≤ py) :
    ((width : ℚ) / (height : ℚ) ≤ (w : ℚ) / (h : ℚ) →
      spec_left w h width height px < 0 →
      cropRect w h width height px py = (0, 0, spec_crop_width h width height, (h : Int)))
  ∧ ((width : ℚ) / (height : ℚ) ≤ (w : ℚ) / (h : ℚ) →
      0 ≤ spec_left w h width height px →
      (w : Int) < spec_left w h width height px + spec_crop_width h width height →
      cropRect w h width height px py
        = ((w : Int) - spec_crop_width h width height, 0, (w : Int), (h : Int)))
  ∧ ((w : ℚ) / (h : ℚ) < (width : ℚ) / (height : ℚ) →
      spec_top w h width height py < 0 →
      cropRect w h width height px py = (0, 0, (w : Int), spec_crop_height w width height))
  ∧ ((w : ℚ) / (h : ℚ) < (width : ℚ) / (height : ℚ) →
      0 ≤ spec_top w h width height py →
      (h : Int) < spec_top w h width height py + spec_crop_height w width height →
      cropRect w h width height px py
        = (0, (h : Int) - spec_crop_height w width height, (w : Int), (h : Int))) := by
  have hfx : truncQ ((w : ℚ) * px) = focus_x w px :=
    truncQ_of_nonneg _ (by positivity)
  have hfy : truncQ ((h : ℚ) * py) = focus_y h py :=
    truncQ_of_nonneg _ (by positivity)
  have hcw : truncQ ((width : ℚ) / (height : ℚ) * (h : ℚ) + 1/2)
      = spec_crop_width h width height :=
    truncQ_of_nonneg _ (by positivity)
  have hch : truncQ ((w : ℚ) / ((width : ℚ) / (height : ℚ)) + 1/2)
      = spec_crop_height w width height :=
    truncQ_of_nonneg _ (by positivity)
  refine ⟨fun hb hcl => ?_, fun hb hl hr => ?_, fun hb hcl => ?_, fun hb ht hbt => ?_⟩
  · simp only [cropRect, if_pos hb, hfx, hcw, fdiv_two_eq]
    rw [if_pos]
    exact hcl
  · simp only [cropRect, if_pos hb, hfx, hcw, fdiv_two_eq]
    simp only [spec_left] at hr
    rw [if_neg (by rw [not_lt]; exact hl), if_pos hr]
  · simp only [cropRect, if_neg (not_le.mpr hb), hfy, hch, fdiv_two_eq]
    rw [if_pos]
    exact hcl
  · simp only [cropRect, if_neg (not_le.mpr hb), hfy, hch, fdiv_two_eq]
    simp only [spec_top] at hbt
    rw [if_neg (by rw [not_lt]; exact ht), if_pos hbt]

/-- Witness for C4: the spec's concrete example — source 1000×500, target
200×200, PPOI (0.01, 0.5) — shifts the window to left 0, right 500. -/
theorem c4_crop_clamp_shifts_window_witness :
    cropRect 1000 500 200 200 (1/100) (1/2) = (0, 0, 500, 500) := by
  have hcw : spec_crop_width 500 200 200 = 500 := by
    simp only [spec_crop_width]
    norm_num
  have hsl : spec_left 1000 500 200 200 (1/100) < 0 := by
    simp only [spec_left, focus_x, hcw]
    norm_num
  have h := (c4_crop_clamp_shifts_window 1000 500 200 200 (1/100) (1/2) (by norm_num)
    (by norm_num)).1 (by norm_num) hsl
  rw [h, hcw]
  norm_num

/-- Claim C6: with `force = false` and a storage that reports the target
as existing, `process_image` returns success immediately: the trace is the
single existence check — no decode, no pipeline, no delete, no save — so
a second render with identical inputs is a no-op. -/
theorem c6_existing_target_short_circuit (decodeRes : Option Img)
    (encode : Img → Option String → SaveKwargs → Option (List Nat))
    (target : String) (processors : List Spec) (ppoi : ℚ × ℚ) :
    process_image true decodeRes encode target processors ppoi false
      = (.ok (), [.existsCheck target true]) :=
  rfl

/-- Claim C7: on a GIF source, `preprocess_gif` copies a present
transparency index into the encode options (leaving every other option and
the PPOI untouched), captures the palette, delegates exactly once, and
re-applies the captured palette onto the image the delegate returns, so a
successful result's palette equals the pre-pipeline palette; on a non-GIF
source it delegates unchanged with an untouched context. -/
theorem c7_preprocess_gif_palette (g : Handler) (image : Img) (c : Ctx)
    (args : List (Nat × Nat)) :
    (∀ p, image.format = some ("GIF") → image.getpalette = some p →
      preprocess_gif g args image c
        = (g image (gifContext image c)).map (fun r => (Img.putpalette p r.1, r.2)))
  ∧ (∀ p i2 c2, image.format = some ("GIF") → image.getpalette = some p →
      preprocess_gif g args image c = .ok (i2, c2) → i2.getpalette = some p)
  ∧ (image.format ≠ some ("GIF") → preprocess_gif g args image c = g image c)
  ∧ ((gifContext image c).ppoi = c.ppoi
      ∧ (gifContext image c).save_kwargs.quality = c.save_kwargs.quality
      ∧ (gifContext image c).save_kwargs.progressive = c.save_kwargs.progressive
      ∧ (gifContext image c).save_kwargs.icc_profile = c.save_kwargs.icc_profile
      ∧ (gifContext image c).save_kwargs.transparency
          = (match image.infoTransparency with
             | some t => some t
             | none => c.save_kwargs.transparency)) := by
  have hmap : ∀ p, image.format = some ("GIF") → image.getpalette = some p →
      preprocess_gif g args image c
        = (g image (gifContext image c)).map (fun r => (Img.putpalette p r.1, r.2)) := by
    intro p hf hp
    rw [preprocess_gif, if_pos hf, hp]
    cases hg : g image (gifContext image c) with
    | error e => simp [Except.map, hg]
    | ok r => simp [Except.map, hg]
  refine ⟨hmap, fun p i2 c2 hf hp hok => ?_, fun hf => ?_, ?_⟩
  · rw [hmap p hf hp] at hok
    cases hg : g image (gifContext image c) with
    | error e =>
      rw [hg] at hok
      simp [Except.map] at hok
    | ok r =>
      rw [hg] at hok
      simp only [Except.map] at hok
      injection hok with hpair
      have h1 : Img.putpalette p r.1 = i2 := congrArg Prod.fst hpair
      rw [← h1]
      rfl
  · rw [preprocess_gif, if_neg hf]
  · cases hi : image.infoTransparency <;> simp [gifContext, hi]

/-- Witness for C7: a GIF source processed above an inner handler that
converts to RGB (dropping the palette) still comes back with the captured
palette re-applied. -/
theorem c7_preprocess_gif_palette_witness :
    (Img.base meta0).format = some ("GIF")
  ∧ (Img.base meta0).getpalette = some [1, 2, 3]
  ∧ preprocess_gif g0 [] (Img.base meta0) ctx0
      = .ok (Img.putpalette [1, 2, 3] (Img.convertRGB (Img.base meta0)),
          gifContext (Img.base meta0) ctx0)
  ∧ (Img.putpalette [1, 2, 3] (Img.convertRGB (Img.base meta0))).getpalette
      = some [1, 2, 3] := by
  have h := (c7_preprocess_gif_palette g0 (Img.base meta0) ctx0 []).1 [1, 2, 3] rfl rfl
  exact ⟨rfl, rfl, by rw [h]; rfl, rfl⟩

/-- Claim C8 counterexample: registering a second factory under an
already-used name DOES silently replace the first — after registering
`autorotate` and then `thumbnail` under the key "crop", the registry
returns the second factory, not the first. -/
theorem c8_second_registration_replaces_first :
    dictGet (register (register ([] : List (String × Factory)) ("crop") autorotate)
        ("crop") thumbnail) ("crop") = some thumbnail
  ∧ dictGet (register (register ([] : List (String × Factory)) ("crop") autorotate)
        ("crop") thumbnail) ("crop") ≠ some autorotate := by
  refine ⟨rfl, fun hcontra => ?_⟩
  have h2 : thumbnail = autorotate :=
    Option.some.inj ((rfl :
      dictGet (register (register ([] : List (String × Factory)) ("crop") autorotate)
        ("crop") thumbnail) ("crop") = some thumbnail).symm.trans hcontra)
  have h3 : thumbnail handler0 [] (Img.base metaW)
        { ppoi := (0, 0), save_kwargs := SaveKwargs.empty }
      = autorotate handler0 [] (Img.base metaW)
        { ppoi := (0, 0), save_kwargs := SaveKwargs.empty } := by rw [h2]
  simp [thumbnail, autorotate, handler0, Img.hasExifMethod, metaW] at h3

/-- Claim C8 (amended): a second registration under the same name replaces
the first (the dictionary keeps one entry per name, with the second
factory winning), and registration is append-only: it never removes an
entry — every name resolvable before a registration is still resolvable
after it (and the module offers no removal operation at all). -/
theorem c8_register_replaces_and_is_append_only {α : Type} (d : List (String × α))
    (n : String) (f g : α) :
    dictGet (register (register d n f) n g) n = some g
  ∧ ∀ m, (dictGet d m).isSome = true → (dictGet (register d n f) m).isSome = true := by
  constructor
  · rw [register, register]
    induction d with
    | nil => simp [dictSet, dictGet]
    | cons kv rest ih =>
      by_cases hk : kv.1 = n
      · simp [dictSet, hk, dictGet]
      · simpa [dictSet, hk, dictGet] using ih
  · intro m hm
    rw [register]
    exact dictGet_dictSet_isSome d n f m hm

/-- Witness for the amended C8 at a concrete dictionary. -/
theorem c8_register_replaces_and_is_append_only_witness :
    dictGet (register (register [(("other" : String), (5 : Nat))] ("p") 1) ("p") 2) ("p")
        = some 2
  ∧ (dictGet (register [(("other" : String), (5 : Nat))] ("p") 1) ("other")).isSome
        = true :=
  ⟨(c8_register_replaces_and_is_append_only [(("other" : String), 5)] ("p") 1 2).1,
   (c8_register_replaces_and_is_append_only [(("other" : String), 5)] ("p") 1 2).2
     ("other") rfl⟩

/-- Claim C9: `autorotate` maps EXIF orientation 3 to a 180° rotation, 6
to a 270° rotation and 8 to a 90° rotation, transposing before it
delegates; with no `_getexif` method, falsy EXIF data, a missing
orientation tag, or an unmapped value (such as 1), it delegates the image
unrotated. -/
theorem c9_autorotate_orientation (g : Handler) (i : Img) (c : Ctx)
    (args : List (Nat × Nat)) :
    (i.hasExifMethod = false → autorotate g args i c = g i c)
  ∧ (i.getexif = [] → autorotate g args i c = g i c)
  ∧ (i.hasExifMethod = true → i.getexif.lookup 274 = some 3 →
      autorotate g args i c = g (Img.transpose ROTATE_180 i) c)
  ∧ (i.hasExifMethod = true → i.getexif.lookup 274 = some 6 →
      autorotate g args i c = g (Img.transpose ROTATE_270 i) c)
  ∧ (i.hasExifMethod = true → i.getexif.lookup 274 = some 8 →
      autorotate g args i c = g (Img.transpose ROTATE_90 i) c)
  ∧ (i.getexif.lookup 274 = none → autorotate g args i c = g i c)
  ∧ (∀ v, i.getexif.lookup 274 = some v → v ≠ 3 → v ≠ 6 → v ≠ 8 →
      autorotate g args i c = g i c) := by
  have hne : ∀ (v : Int), i.getexif.lookup 274 = some v → ¬(i.getexif = []) := by
    intro v hv h0
    rw [h0] at hv
    simp [List.lookup] at hv
  refine ⟨fun h => ?_, fun h => ?_, fun hm h274 => ?_, fun hm h274 => ?_,
    fun hm h274 => ?_, fun h274 => ?_, fun v h274 hv3 hv6 hv8 => ?_⟩
  · simp [autorotate, h]
  · cases hm : i.hasExifMethod <;> simp [autorotate, hm, h]
  · simp [autorotate, hm, hne 3 h274, h274, List.lookup, ROTATE_180]
  · simp [autorotate, hm, hne 6 h274, h274, List.lookup, ROTATE_270]
  · simp [autorotate, hm, hne 8 h274, h274, List.lookup, ROTATE_90]
  · cases hm : i.hasExifMethod with
    | false => simp [autorotate, hm]
    | true =>
      by_cases he : i.getexif = []
      · simp [autorotate, hm, he]
      · simp [autorotate, hm, he, h274]
  · cases hm : i.hasExifMethod with
    | false => simp [autorotate, hm]
    | true =>
      have b3 : (v == 3) = false := by simp [hv3]
      have b6 : (v == 6) = false := by simp [hv6]
      have b8 : (v == 8) = false := by simp [hv8]
      simp [autorotate, hm, hne v h274, h274, List.lookup, b3, b6, b8]

/-- Witness for C9: a JPEG whose orientation tag is 6 is transposed with
`ROTATE_270` before delegation. -/
theorem c9_autorotate_orientation_witness :
    (Img.base metaE).hasExifMethod = true
  ∧ (Img.base metaE).getexif.lookup 274 = some 6
  ∧ autorotate g0 [] (Img.base metaE) ctx0
      = g0 (Img.transpose ROTATE_270 (Img.base metaE)) ctx0 :=
  ⟨rfl, rfl, ((c9_autorotate_orientation g0 (Img.base metaE) ctx0 []).2.2.2.1) rfl rfl⟩

/-- Claim C10: for positive source and target sizes and PPOI fractions in
[0, 1], the rectangle the crop processor passes to the codec's crop lies
entirely inside the image: 0 ≤ left ≤ right ≤ width and
0 ≤ top ≤ bottom ≤ height — in the chosen branch the rounded kept
dimension never exceeds the source dimension, so the shift-clamp never
leaves the image. -/
theorem c10_crop_rect_in_bounds (w h width height : Nat) (px py : ℚ)
    (hw : 0 < w) (hh : 0 < h) (htw : 0 < width) (hth : 0 < height)
    (hpx0 : 0 ≤ px) (hpx1 : px ≤ 1) (hpy0 : 0 ≤ py) (hpy1 : py ≤ 1) :
    0 ≤ (cropRect w h width height px py).1 ∧
    (cropRect w h width height px py).1 ≤ (cropRect w h width height px py).2.2.1 ∧
    (cropRect w h width height px py).2.2.1 ≤ (w : Int) ∧
    0 ≤ (cropRect w h width height px py).2.1 ∧
    (cropRect w h width height px py).2.1 ≤ (cropRect w h width height px py).2.2.2 ∧
    (cropRect w h width height px py).2.2.2 ≤ (h : Int) := by
  have hh' : (0 : ℚ) < (h : ℚ) := by exact_mod_cast hh
  by_cases hb : (width : ℚ) / (height : ℚ) ≤ (w : ℚ) / (h : ℚ)
  · have hcw0 : (0 : Int) ≤ truncQ ((width : ℚ) / (height : ℚ) * (h : ℚ) + 1/2) := by
      rw [truncQ_of_nonneg _ (by positivity)]
      exact floor_half_nonneg (by positivity)
    have hcww : truncQ ((width : ℚ) / (height : ℚ) * (h : ℚ) + 1/2) ≤ (w : Int) := by
      rw [truncQ_of_nonneg _ (by positivity)]
      apply floor_half_le
      have h2 := mul_le_mul_of_nonneg_right hb (le_of_lt hh')
      rwa [div_mul_cancel₀ _ (ne_of_gt hh')] at h2
    simp only [cropRect, if_pos hb, fdiv_two_eq]
    split_ifs with h1 h2 <;> refine ⟨?_, ?_, ?_, ?_, ?_, ?_⟩ <;> dsimp only <;> omega
  · have hta : (0 : ℚ) < (width : ℚ) / (height : ℚ) :=
      lt_of_le_of_lt (by positivity) (not_le.mp hb)
    have hch0 : (0 : Int) ≤ truncQ ((w : ℚ) / ((width : ℚ) / (height : ℚ)) + 1/2) := by
      rw [truncQ_of_nonneg _ (by positivity)]
      exact floor_half_nonneg (by positivity)
    have hchh : truncQ ((w : ℚ) / ((width : ℚ) / (height : ℚ)) + 1/2) ≤ (h : Int) := by
      rw [truncQ_of_nonneg _ (by positivity)]
      apply floor_half_le
      rw [div_le_iff₀ hta]
      have h3 := (div_lt_iff₀ hh').mp (not_le.mp hb)
      linarith
    simp only [cropRect, if_neg hb, fdiv_two_eq]
    split_ifs with h1 h2 <;> refine ⟨?_, ?_, ?_, ?_, ?_, ?_⟩ <;> dsimp only <;> omega

/-- Witness for C10 at the spec's edge-PPOI example. -/
theorem c10_crop_rect_in_bounds_witness :
    0 ≤ (cropRect 1000 500 200 200 (1/100) (1/2)).1 ∧
    (cropRect 1000 500 200 200 (1/100) (1/2)).1
      ≤ (cropRect 1000 500 200 200 (1/100) (1/2)).2.2.1 ∧
    (cropRect 1000 500 200 200 (1/100) (1/2)).2.2.1 ≤ ((1000 : Nat) : Int) ∧
    0 ≤ (cropRect 1000 500 200 200 (1/100) (1/2)).2.1 ∧
    (cropRect 1000 500 200 200 (1/100) (1/2)).2.1
      ≤ (cropRect 1000 500 200 200 (1/100) (1/2)).2.2.2 ∧
    (cropRect 1000 500 200 200 (1/100) (1/2)).2.2.2 ≤ ((500 : Nat) : Int) :=
  c10_crop_rect_in_bounds 1000 500 200 200 (1/100) (1/2) (by norm_num) (by norm_num)
    (by norm_num) (by norm_num) (by norm_num) (by norm_num) (by norm_num) (by norm_num)

end Imagefield
